import Mathlib

/-!
Verification of the silence-cutter take-selection pipeline.

Shallow embedding of the client-side JavaScript sources
(docs/js/silence.js, docs/js/app.js, docs/js/evaluate.js) into Lean.
JavaScript numbers are modelled as rationals, JS Math.round as the
half-up rounding jround below, JS arrays as lists, JS objects used as
integer-keyed maps as association lists (later writes shadow earlier
ones), and JS crashes (property access on undefined) as Option.none.
-/

namespace SilenceCutter

/-- Embeds JS Math.round: rounds to the nearest integer, halves toward
positive infinity. -/
def jround (q : ℚ) : ℤ := ⌊q + 1/2⌋

/-- Embeds round3 from app.js line 1109 and silence.js lines 342-344:
Math.round(n * 1000) / 1000. -/
def round3 (q : ℚ) : ℚ := (jround (q * 1000) : ℚ) / 1000

/-- Embeds JS String.prototype.padStart(len, c): prepends the pad
character until the string has the requested length. -/
def jsPadStart (s : String) (len : Nat) (c : Char) : String :=
  String.mk (List.replicate (len - s.length) c) ++ s

/-- Embeds JS array indexing arr[i] for a possibly negative index:
undefined (none) outside the array bounds. -/
def jsIndex (l : List α) (i : ℤ) : Option α :=
  if 0 ≤ i then l[i.toNat]? else none

/-- Lookup in a JS object modelled as an association list where more
recent writes were prepended: the first hit is the current value. -/
def jsLookup (m : List (ℤ × α)) (k : ℤ) : Option α :=
  (m.find? (fun p => p.1 == k)).map (·.2)

-- ── silence.js: log parsing ──

/-- Value of a list of decimal digit characters, most significant first. -/
def digitsToNat (cs : List Char) : ℕ :=
  cs.foldl (fun n c => 10 * n + (c.toNat - 48)) 0

/-- Embeds JS parseFloat as applied to a token matched by the regex
class [\d.]+ : an optional integer part, an optional dot, then a
fraction; trailing characters (such as a second dot) are ignored.
Tokens that denote no number (for example a lone dot) give none where
JS would give NaN; the NaN path is not exercised by well-formed logs. -/
def parseJSFloat (cs : List Char) : Option ℚ :=
  let intPart := cs.takeWhile Char.isDigit
  let rest := cs.drop intPart.length
  match rest with
  | '.' :: rest2 =>
    let frac := rest2.takeWhile Char.isDigit
    if intPart.isEmpty && frac.isEmpty then none
    else some ((digitsToNat intPart : ℚ) + (digitsToNat frac : ℚ) / (10 ^ frac.length : ℕ))
  | _ => if intPart.isEmpty then none else some (digitsToNat intPart : ℚ)

/-- Drops a literal pattern from the front of the character list,
returning the remainder, or none when the pattern is not a prefix. -/
def stripLit : List Char → List Char → Option (List Char)
  | [], s => some s
  | _ :: _, [] => none
  | p :: ps, c :: cs => if p == c then stripLit ps cs else none

/-- Skips JS regex whitespace (the \s class). -/
def skipWs (s : List Char) : List Char := s.dropWhile Char.isWhitespace

/-- Reads a maximal nonempty token of the regex class [\d.]+ and parses
it as parseFloat would. -/
def readNumToken (s : List Char) : Option ℚ :=
  let tok := s.takeWhile (fun c => c.isDigit || c == '.')
  if tok.isEmpty then none else parseJSFloat tok

/-- Matches the regex silence_start:\s*([\d.]+) at the head of the
character list (silence.js line 236). -/
def tryStart (s : List Char) : Option ℚ :=
  match stripLit "silence_start:".data s with
  | none => none
  | some r => readNumToken (skipWs r)

/-- Matches silence_end:\s*([\d.]+)\s*\|\s*silence_duration:\s*([\d.]+)
at the head of the character list (silence.js line 237). -/
def tryEnd (s : List Char) : Option (ℚ × ℚ) :=
  match stripLit "silence_end:".data s with
  | none => none
  | some r =>
    let r := skipWs r
    let tok := r.takeWhile (fun c => c.isDigit || c == '.')
    match parseJSFloat tok with
    | none => none
    | some e =>
      match stripLit ['|'] (skipWs (r.drop tok.length)) with
      | none => none
      | some r2 =>
        match stripLit "silence_duration:".data (skipWs r2) with
        | none => none
        | some r3 => (readNumToken (skipWs r3)).map (fun d => (e, d))

/-- Matches Duration:\s*(\d+):(\d+):([\d.]+) at the head of the
character list (silence.js line 227) and converts to seconds. -/
def tryDuration (s : List Char) : Option ℚ :=
  match stripLit "Duration:".data s with
  | none => none
  | some r =>
    let r := skipWs r
    let hh := r.takeWhile Char.isDigit
    if hh.isEmpty then none else
    match stripLit [':'] (r.drop hh.length) with
    | none => none
    | some r2 =>
      let mm := r2.takeWhile Char.isDigit
      if mm.isEmpty then none else
      match stripLit [':'] (r2.drop mm.length) with
      | none => none
      | some r3 =>
        (readNumToken r3).map (fun ss =>
          (digitsToNat hh : ℚ) * 3600 + (digitsToNat mm : ℚ) * 60 + ss)

/-- All matches of the silence_start regex in textual order, as
logBuffer.matchAll collects them. The literal silence_start: cannot
overlap itself or occur inside the matched number, so restarting the
scan one character after each match head is equivalent to resuming
after the whole match. -/
def scanStarts : List Char → List ℚ
  | [] => []
  | c :: rest =>
    match tryStart (c :: rest) with
    | some q => q :: scanStarts rest
    | none => scanStarts rest

/-- All matches of the silence_end regex in textual order. -/
def scanEnds : List Char → List (ℚ × ℚ)
  | [] => []
  | c :: rest =>
    match tryEnd (c :: rest) with
    | some p => p :: scanEnds rest
    | none => scanEnds rest

/-- First match of the Duration regex, if any. -/
def findDuration : List Char → Option ℚ
  | [] => none
  | c :: rest =>
    match tryDuration (c :: rest) with
    | some q => some q
    | none => findDuration rest

/-- Silence interval as built by silence.js line 243. -/
structure Silence where
  start : ℚ
  stop : ℚ
  duration : ℚ
  deriving DecidableEq, Repr

/-- Speech segment as built by silence.js lines 256-276. The stop
field embeds the JS field named end. -/
structure Segment where
  index : ℕ
  start : ℚ
  stop : ℚ
  duration : ℚ
  deriving DecidableEq, Repr

/-- Embeds silence.js lines 239-244: the i-th silence_start is paired
with the i-th silence_end; a start with no matching end uses
totalDuration as its end and totalDuration minus the start as its
duration. -/
def mkSilences : List ℚ → List (ℚ × ℚ) → ℚ → List Silence
  | [], _, _ => []
  | s :: srest, [], td => ⟨s, td, td - s⟩ :: mkSilences srest [] td
  | s :: srest, (e, d) :: erest, td => ⟨s, e, d⟩ :: mkSilences srest erest td

/-- Embeds the segment-derivation loop of silence.js lines 247-278,
including the trailing segment after the last silence. The accumulator
carries the segments emitted so far; its length is the next index. -/
def segLoop (padding minSpeech totalDuration : ℚ) :
    List Silence → ℚ → List Segment → List Segment
  | [], prevEnd, acc =>
    if prevEnd < totalDuration then
      let segStart := max 0 (prevEnd - padding)
      let dur := totalDuration - segStart
      if minSpeech ≤ dur then
        acc ++ [⟨acc.length, round3 segStart, round3 totalDuration, round3 dur⟩]
      else acc
    else acc
  | s :: rest, prevEnd, acc =>
    let segStart := max 0 (prevEnd - padding)
    let segEnd := min totalDuration (s.start + padding)
    let dur := segEnd - segStart
    let acc' :=
      if minSpeech ≤ dur then
        acc ++ [⟨acc.length, round3 segStart, round3 segEnd, round3 dur⟩]
      else acc
    segLoop padding minSpeech totalDuration rest s.stop acc'

/-- Result record of detectSilence (silence.js line 280). -/
structure DetectionResult where
  segments : List Segment
  silences : List Silence
  totalDuration : ℚ
  deriving DecidableEq, Repr

/-- Embeds detectSilence from silence.js lines 203-281, starting from
the captured log text. The noiseDb and minSilence parameters only
shape the ffmpeg invocation, not the parsing, and are therefore unused
here. A log with no Duration line yields totalDuration 0. -/
def detectSilence (logBuffer : String) (_noiseDb : ℚ := -35)
    (_minSilence : ℚ := 0.7) (minSpeech : ℚ := 0.3) (padding : ℚ := 0.05) :
    DetectionResult :=
  let cs := logBuffer.data
  let totalDuration := (findDuration cs).getD 0
  let silences := mkSilences (scanStarts cs) (scanEnds cs) totalDuration
  let segments := segLoop padding minSpeech totalDuration silences 0 []
  ⟨segments, silences, totalDuration⟩

/-- Synthetic silence-detect log for scenario S1: duration ten seconds,
silences 2..3 and 6..7. -/
def s1Log : String :=
  "  Duration: 0:00:10.000, start: 0.000000\n" ++
  "[silencedetect] silence_start: 2.0\n" ++
  "[silencedetect] silence_end: 3.0 | silence_duration: 1.0\n" ++
  "[silencedetect] silence_start: 6.0\n" ++
  "[silencedetect] silence_end: 7.0 | silence_duration: 1.0\n"

/-- The S1 log with the second silence_end line removed (scenario S2). -/
def s2Log : String :=
  "  Duration: 0:00:10.000, start: 0.000000\n" ++
  "[silencedetect] silence_start: 2.0\n" ++
  "[silencedetect] silence_end: 3.0 | silence_duration: 1.0\n" ++
  "[silencedetect] silence_start: 6.0\n"

-- ── app.js: text similarity (lines 577-603) ──

/-- Embeds levenshtein from app.js lines 590-603: the classic dynamic
programming table over the characters of both strings. -/
def levenshtein (a b : String) : ℕ := Id.run do
  let as := a.data.toArray
  let bs := b.data.toArray
  let m := as.size
  let n := bs.size
  let mut dp : Array (Array ℕ) := Array.mkArray (m + 1) (Array.mkArray (n + 1) 0)
  for i in [0:m+1] do
    dp := dp.set! i ((dp.get! i).set! 0 i)
  for j in [0:n+1] do
    dp := dp.set! 0 ((dp.get! 0).set! j j)
  for i in [1:m+1] do
    for j in [1:n+1] do
      let v :=
        if as.get! (i - 1) == bs.get! (j - 1) then
          (dp.get! (i - 1)).get! (j - 1)
        else
          1 + min ((dp.get! (i - 1)).get! j)
                (min ((dp.get! i).get! (j - 1)) ((dp.get! (i - 1)).get! (j - 1)))
      dp := dp.set! i ((dp.get! i).set! j v)
  return (dp.get! m).get! n

/-- Embeds textSimilarity from app.js lines 577-588. The JS guard
if (!a or !b) return 0 fires exactly on an empty string, before the
lower-casing and trimming. The maxLen = 0 branch is kept although it
is unreachable (both trimmed strings empty would have been equal). -/
def textSimilarity (a b : String) : ℚ :=
  if a = "" ∨ b = "" then 0
  else
    let a' := a.toLower.trim
    let b' := b.toLower.trim
    if a' = b' then 1
    else
      let maxLen := max a'.length b'.length
      if maxLen = 0 then 1
      else 1 - (levenshtein a' b' : ℚ) / (maxLen : ℚ)

/-- Modelled from the spec, section 4.E, as amended: an empty original
text on either side (including both sides) gives 0.0; texts equal
after lower-casing and trimming give 1.0; otherwise one minus the
Levenshtein distance over the longer normalised length. -/
def specTextSimilarity (a b : String) : ℚ :=
  if a = "" ∨ b = "" then 0
  else if a.toLower.trim = b.toLower.trim then 1
  else 1 - (levenshtein a.toLower.trim b.toLower.trim : ℚ) /
      (max a.toLower.trim.length b.toLower.trim.length : ℚ)

-- ── data model shared by evaluate.js and app.js ──

/-- Score record attached to a take by applyEvaluation
(evaluate.js lines 150-156). -/
structure Scores where
  audio_quality : ℚ
  content : ℚ
  emotion : ℚ
  overall : ℚ
  comment : String
  deriving DecidableEq, Repr

/-- A take: a speech segment as threaded through grouping, evaluation
and export. Only the fields the verified operations read are modelled.
transcription holds the text of the optional transcription object;
text is the flat field read as a fallback by generateEDL. -/
structure Take where
  index : ℤ
  start : ℚ
  stop : ℚ
  duration : ℚ
  transcription : Option String
  text : Option String
  ai_scores : Option Scores
  is_best : Bool
  deriving DecidableEq, Repr

/-- A group of similar takes (app.js lines 551-554): group_id is the
position in the group list at creation time. -/
structure Group where
  group_id : ℤ
  takes : List Take
  text_summary : String
  deriving DecidableEq, Repr

-- ── evaluate.js: applyEvaluation (lines 141-199) ──

/-- One take entry of the oracle reply. Absent JSON fields are none. -/
structure TakeEval where
  segment_index : ℤ
  audio_quality : Option ℚ
  content : Option ℚ
  emotion : Option ℚ
  overall : Option ℚ
  comment : Option String
  deriving DecidableEq, Repr

/-- One group entry of the oracle reply. -/
structure EvalGroup where
  group_id : ℤ
  takes : Option (List TakeEval)
  best_take_index : Option ℤ
  deriving DecidableEq, Repr

/-- The parsed oracle reply. none models a missing or null field. -/
structure Evaluation where
  evaluations : Option (List EvalGroup)
  suggested_order : Option (List ℤ)
  overall_notes : Option String
  deriving DecidableEq, Repr

/-- Score record built from a take entry (evaluate.js lines 150-156);
the JS default x or 0 maps a missing field to 0. -/
def scoresOf (te : TakeEval) : Scores :=
  ⟨te.audio_quality.getD 0, te.content.getD 0, te.emotion.getD 0,
   te.overall.getD 0, te.comment.getD ""⟩

/-- Embeds the first loop of applyEvaluation (evaluate.js lines
145-167), building scoreLookup and bestPerGroup. A negative group_id
with a non-null best_take_index, or a negative best_take_index within
range, makes the JS code read a property of undefined and throw; that
is modelled as none. -/
def evalScoresBest (groups : List Group) :
    List EvalGroup → List (ℤ × Scores) × List (ℤ × ℤ) →
    Option (List (ℤ × Scores) × List (ℤ × ℤ))
  | [], acc => some acc
  | eg :: rest, (sl, bm) =>
    let sl' := (eg.takes.getD []).foldl
      (fun m te => (te.segment_index, scoresOf te) :: m) sl
    match eg.best_take_index with
    | none => evalScoresBest groups rest (sl', bm)
    | some bestIdx =>
      if eg.group_id < (groups.length : ℤ) then
        match jsIndex groups eg.group_id with
        | none => none
        | some grp =>
          if bestIdx < (grp.takes.length : ℤ) then
            match jsIndex grp.takes bestIdx with
            | none => none
            | some tk => evalScoresBest groups rest (sl', (eg.group_id, tk.index) :: bm)
          else
            evalScoresBest groups rest (sl', (eg.group_id, bestIdx) :: bm)
      else evalScoresBest groups rest (sl', bm)

/-- Embeds the score-application loop of applyEvaluation (evaluate.js
lines 170-177): scores are attached where the lookup hits, and is_best
is the comparison of the take index with the bestPerGroup entry of the
group (a missing entry leaves every comparison false). -/
def applyGroup (sl : List (ℤ × Scores)) (bm : List (ℤ × ℤ)) (g : Group) : Group :=
  { g with takes := g.takes.map (fun t =>
      { t with
        ai_scores := (match jsLookup sl t.index with
          | some s => some s
          | none => t.ai_scores),
        is_best := jsLookup bm g.group_id == some t.index }) }

/-- Embeds the best-takes loop of applyEvaluation (evaluate.js lines
181-191), reading the already-updated groups. A negative gid with a
bestPerGroup entry would make the JS code throw; modelled as none. -/
def buildBestTakes (groups' : List Group) (bm : List (ℤ × ℤ)) :
    List ℤ → Option (List Take)
  | [] => some []
  | gid :: rest =>
    if gid < (groups'.length : ℤ) then
      match jsLookup bm gid with
      | none => buildBestTakes groups' bm rest
      | some segIdx =>
        match jsIndex groups' gid with
        | none => none
        | some g =>
          match g.takes.find? (fun t => t.index == segIdx) with
          | some take => (buildBestTakes groups' bm rest).map (take :: ·)
          | none => buildBestTakes groups' bm rest
    else buildBestTakes groups' bm rest

/-- Result record of applyEvaluation (evaluate.js lines 193-198). -/
structure EvalResult where
  bestTakes : List Take
  groups : List Group
  suggestedOrder : List ℤ
  overallNotes : String
  deriving DecidableEq, Repr

/-- Embeds the order default of applyEvaluation (evaluate.js line 180):
the JS expression evaluation.suggested_order or identity replaces only
a missing or null field, because an empty array is truthy in JS. -/
def suggestedOrderOf (ev : Evaluation) (groups : List Group) : List ℤ :=
  match ev.suggested_order with
  | some l => l
  | none => (List.range groups.length).map Int.ofNat

/-- Embeds applyEvaluation from evaluate.js lines 141-199. -/
def applyEvaluation (groups : List Group) (ev : Evaluation) : Option EvalResult :=
  match evalScoresBest groups (ev.evaluations.getD []) ([], []) with
  | none => none
  | some (sl, bm) =>
    match buildBestTakes (groups.map (applyGroup sl bm)) bm (suggestedOrderOf ev groups) with
    | none => none
    | some bt =>
      some ⟨bt, groups.map (applyGroup sl bm), suggestedOrderOf ev groups,
        ev.overall_notes.getD ""⟩

-- ── app.js: select-take override (lines 312-337) ──

/-- The session state fields touched by handleSelectTake. -/
structure AppState where
  groups : List Group
  suggestedOrder : List ℤ
  bestTakes : List Take
  finalDuration : ℚ
  deriving DecidableEq, Repr

/-- The per-group flag update of handleSelectTake (app.js lines
317-319): is_best becomes the comparison of each take index with the
requested segment index. -/
def setBest (segIndex : ℤ) (g : Group) : Group :=
  { g with takes := g.takes.map (fun t => { t with is_best := t.index == segIndex }) }

/-- Embeds the rebuild loop of handleSelectTake (app.js lines 322-329):
walk the order, skip missing groups, emit the first take flagged
is_best in each group. -/
def rebuildBestTakes (groups : List Group) : List ℤ → List Take
  | [] => []
  | gid :: rest =>
    match jsIndex groups gid with
    | none => rebuildBestTakes groups rest
    | some g =>
      match g.takes.find? (·.is_best) with
      | some best => best :: rebuildBestTakes groups rest
      | none => rebuildBestTakes groups rest

/-- Embeds handleSelectTake from app.js lines 312-337 (the UI calls at
the end mutate only the DOM and are omitted). A missing group returns
the state unchanged; otherwise the group flags are rewritten, the best
takes rebuilt over the suggested order (or the identity order when it
is empty), and the final duration summed afresh. -/
def handleSelectTake (st : AppState) (groupId segIndex : ℤ) : AppState :=
  match jsIndex st.groups groupId with
  | none => st
  | some group =>
    let groups' := st.groups.set groupId.toNat (setBest segIndex group)
    let order := if st.suggestedOrder.isEmpty
      then (List.range st.groups.length).map Int.ofNat
      else st.suggestedOrder
    let bt := rebuildBestTakes groups' order
    { st with
      groups := groups',
      bestTakes := bt,
      finalDuration := bt.foldl (fun sum t => sum + t.duration) 0 }

-- ── app.js export generators (lines 922-1110) ──

/-- The frame numbers of one clipitem as emitted by generateFCPXML:
inF and outF embed the in and out tags, start and stop the start and
end tags, duration the sequence-wide duration tag. -/
structure Clipitem where
  inF : ℤ
  outF : ℤ
  start : ℤ
  stop : ℤ
  duration : ℤ
  deriving DecidableEq, Repr

/-- Embeds the clipitem loop of generateFCPXML (app.js lines 950-965
for the video track and 975-990 for the audio track; both compute the
same frame numbers): in and out are Math.round of source seconds times
fps, start is the running frame position, end adds the clip length. -/
def fcpTrackClipitems (fps : ℚ) (totalFrames : ℤ) :
    List Take → ℤ → List Clipitem
  | [], _ => []
  | t :: rest, pos =>
    let inF := jround (t.start * fps)
    let outF := jround (t.stop * fps)
    let clipDur := outF - inF
    ⟨inF, outF, pos, pos + clipDur, totalFrames⟩ ::
      fcpTrackClipitems fps totalFrames rest (pos + clipDur)

/-- Embeds the frame arithmetic of generateFCPXML (app.js lines
922-999): the clipitem numbers of one track, with the shared sequence
duration Math.round(totalDuration times fps). The surrounding XML
serialisation carries no further arithmetic. -/
def generateFCPXMLClipitems (bestTakes : List Take) (totalDuration : ℚ)
    (fps : ℚ := 25) : List Clipitem :=
  fcpTrackClipitems fps (jround (totalDuration * fps)) bestTakes 0

/-- Embeds timecodeFromSeconds from app.js lines 1098-1106: total
frames by Math.round, then frames, seconds, minutes and hours fields,
each zero-padded to two digits. -/
def timecodeFromSeconds (seconds : ℚ) (fps : ℤ) : String :=
  let totalFrames := jround (seconds * (fps : ℚ))
  let ff := totalFrames % fps
  let totalSec := ⌊(totalFrames : ℚ) / (fps : ℚ)⌋
  let ss := totalSec % 60
  let mm := ⌊(totalSec : ℚ) / 60⌋ % 60
  let hh := ⌊(totalSec : ℚ) / 3600⌋
  jsPadStart (toString hh) 2 '0' ++ ":" ++ jsPadStart (toString mm) 2 '0' ++
    ":" ++ jsPadStart (toString ss) 2 '0' ++ ":" ++ jsPadStart (toString ff) 2 '0'

/-- First string of a list that is neither missing nor empty, else the
empty string: embeds the JS chain a or b or empty over strings, where
the empty string is falsy. -/
def jsOrStr : List (Option String) → String
  | [] => ""
  | some s :: rest => if s = "" then jsOrStr rest else s
  | none :: rest => jsOrStr rest

/-- Decimal rendering of a rational for EDL comment lines. JS prints
the shortest decimal that round-trips the float; every score value the
pipeline produces is a short decimal, rendered here exactly when the
denominator divides a power of ten and as num/den otherwise. -/
def ratToDisplay (q : ℚ) : String :=
  if q.den = 1 then toString q.num
  else if (10000 : ℤ) % (q.den : ℤ) = 0 then
    let scaled := q.num * ((10000 : ℤ) / (q.den : ℤ))
    let absS := toString scaled.natAbs
    let padded := jsPadStart absS 5 '0'
    let intPart := padded.take (padded.length - 4)
    let fracPart := (padded.drop (padded.length - 4)).dropRightWhile (· == '0')
    (if q.num < 0 then "-" else "") ++ intPart ++ "." ++ fracPart
  else toString q.num ++ "/" ++ toString q.den

/-- Embeds the score display of the EDL comment line (app.js line
1023): the overall score when ai_scores is present, else N/A. -/
def edlScoreStr (t : Take) : String :=
  match t.ai_scores with
  | some sc => ratToDisplay sc.overall
  | none => "N/A"

/-- Embeds the per-take loop of generateEDL (app.js lines 1012-1028):
one edit line with source-in, source-out, record-in and record-out
timecodes, a clip-name comment, a take comment and a blank line. -/
def edlTakeLines (sourceFilename : String) (fps : ℤ) :
    List Take → ℕ → ℚ → List String
  | [], _, _ => []
  | t :: rest, i, pos =>
    let editNum := jsPadStart (toString (i + 1)) 3 '0'
    let srcIn := timecodeFromSeconds t.start fps
    let srcOut := timecodeFromSeconds t.stop fps
    let recIn := timecodeFromSeconds pos fps
    let recOut := timecodeFromSeconds (pos + t.duration) fps
    let text := (jsOrStr [t.transcription, t.text]).take 60
    (editNum ++ "  AX       AA/V  C        " ++ srcIn ++ " " ++ srcOut ++
        " " ++ recIn ++ " " ++ recOut) ::
      ("* FROM CLIP NAME: " ++ sourceFilename) ::
      ("* COMMENT: Take " ++ toString t.index ++ " | Score: " ++ edlScoreStr t ++
        " | " ++ text) ::
      "" :: edlTakeLines sourceFilename fps rest (i + 1) (pos + t.duration)

/-- Embeds generateEDL from app.js lines 1004-1031 as the list of
lines it pushes before joining. -/
def generateEDLLines (bestTakes : List Take) (sourceFilename : String)
    (fps : ℤ := 25) : List String :=
  "TITLE: Silence Cutter Edit" :: "FCM: NON-DROP FRAME" :: "" ::
    edlTakeLines sourceFilename fps bestTakes 0 0

/-- Embeds generateEDL including the final join with newlines. -/
def generateEDL (bestTakes : List Take) (sourceFilename : String)
    (fps : ℤ := 25) : String :=
  String.intercalate "\n" (generateEDLLines bestTakes sourceFilename fps)

-- ── concrete inputs used by the claim theorems and witnesses ──

/-- The single take of scenarios S5 and S6: source start 1.000 s, end
2.500 s, duration 1.500 s, no transcription and no scores. -/
def s6Take : Take := ⟨0, 1, 5/2, 3/2, none, none, none, true⟩

/-- Two takes with distinct indices and a one-second duration each,
used by the evaluation examples. -/
def wTake (i : ℤ) : Take := ⟨i, 0, 1, 1, some "hi", none, none, false⟩

/-- One group holding both example takes. -/
def wGroups : List Group := [⟨0, [wTake 0, wTake 1], "hi"⟩]

/-- An oracle reply whose evaluations list is missing entirely. -/
def emptyEval : Evaluation := ⟨none, none, none⟩

/-- An oracle reply selecting take 1 of group 0, with the
suggested_order field missing. -/
def wEvalNoOrder : Evaluation := ⟨some [⟨0, none, some 1⟩], none, none⟩

/-- An oracle reply selecting take 1 of group 0, with an explicitly
empty suggested_order list. -/
def wEvalEmptyOrder : Evaluation := ⟨some [⟨0, none, some 1⟩], some [], none⟩

/-- The best-take table produced for wGroups and wEvalNoOrder: group 0
maps to segment index 1. -/
def wBM : List (ℤ × ℤ) := [(0, 1)]

/-- The group of wGroups after applyEvaluation has flagged take 1. -/
def wResGroup : Group :=
  ⟨0, [⟨0, 0, 1, 1, some "hi", none, none, false⟩,
       ⟨1, 0, 1, 1, some "hi", none, none, true⟩], "hi"⟩

/-- The evaluation result for wGroups and wEvalNoOrder. -/
def wRes : EvalResult :=
  ⟨[⟨1, 0, 1, 1, some "hi", none, none, true⟩], [wResGroup], [0], ""⟩

/-- A two-take session state whose first take is the current best. -/
def wState : AppState :=
  ⟨[⟨0, [⟨0, 0, 1, 1, none, none, none, true⟩,
         ⟨1, 1, 2, 1, none, none, none, false⟩], "x"⟩],
   [0],
   [⟨0, 0, 1, 1, none, none, none, true⟩],
   1⟩

/-- The first group of wState after a select-take override of take 1. -/
def wStateGroup : Group :=
  ⟨0, [⟨0, 0, 1, 1, none, none, none, false⟩,
       ⟨1, 1, 2, 1, none, none, none, true⟩], "x"⟩

/-- Contribution test for one slot of the suggested order: the group
at position i exists, has a bestPerGroup entry, and the entry matches
the index of some member. -/
def contributesAt (groups' : List Group) (bm : List (ℤ × ℤ)) (i : ℕ) : Bool :=
  match groups'[i]? with
  | none => false
  | some g =>
    match jsLookup bm (Int.ofNat i) with
    | none => false
    | some v => (g.takes.find? (fun t => t.index == v)).isSome


/-- The first group of wState, before any override. -/
def wOrigGroup : Group :=
  ⟨0, [⟨0, 0, 1, 1, none, none, none, true⟩,
       ⟨1, 1, 2, 1, none, none, none, false⟩], "x"⟩

/-- The first take of wState after an override names a segment that is
not a member: its flag is cleared. -/
def wClearedTake : Take := ⟨0, 0, 1, 1, none, none, none, false⟩

/-- The first group of wState after such an invalid override: every
flag cleared. -/
def wClearedGroup : Group :=
  ⟨0, [⟨0, 0, 1, 1, none, none, none, false⟩,
       ⟨1, 1, 2, 1, none, none, none, false⟩], "x"⟩

-- ── helper lemmas ──

/-- A string of length zero is the empty string. -/
theorem string_length_zero {s : String} (h : s.length = 0) : s = "" := by
  cases s with
  | mk data =>
    cases data with
    | nil => rfl
    | cons c cs => simp [String.length] at h

-- ── claim theorems ──

/-- C1 counterexample: for the S6 take at fps 25 the clipitem is not
in 25, out 62, start 0, end 37 — JS Math.round(2.5 times 25) rounds
62.5 up to 63, so the emitted out is 63 and the end 38. -/
theorem c1_counterexample :
    (generateFCPXMLClipitems [s6Take] 10 25).map
      (fun c => (c.inF, c.outF, c.start, c.stop)) ≠ [(25, 62, 0, 37)] := by
  have he : (generateFCPXMLClipitems [s6Take] 10 25).map
      (fun c => (c.inF, c.outF, c.start, c.stop)) = [(25, 63, 0, 38)] := by
    with_unfolding_all rfl
  rw [he]
  simp

/-- C1 (amended): for the single take with source start 1.000 s and
end 2.500 s at fps 25 placed at timeline position 0, generateFCPXML
emits a clipitem with in 25, out 63, start 0 and end 38, where in and
out are Math.round (half up) of source seconds times fps and
end minus start equals out minus in. -/
theorem c1_fcpxml_frame_math :
    (generateFCPXMLClipitems [s6Take] 10 25).map
      (fun c => (c.inF, c.outF, c.start, c.stop)) = [(25, 63, 0, 38)] ∧
    jround (1 * 25) = 25 ∧ jround ((5/2) * 25) = 63 ∧
    (38 : ℤ) - 0 = 63 - 25 := by
  refine ⟨by with_unfolding_all rfl, by with_unfolding_all rfl,
    by with_unfolding_all rfl, by norm_num⟩

set_option maxRecDepth 10000 in
/-- C2 counterexample: the EDL emitted for the S6 take at fps 25 does
not contain the claimed edit line with timecodes 00:00:02:12 and
00:00:01:12 — Math.round gives frame 63 and 38, so both frame fields
are 13. -/
theorem c2_counterexample :
    "001  AX       AA/V  C        00:00:01:00 00:00:02:12 00:00:00:00 00:00:01:12"
      ∉ generateEDLLines [s6Take] "source.mp4" 25 := by
  intro h
  have he : generateEDLLines [s6Take] "source.mp4" 25 =
      ["TITLE: Silence Cutter Edit", "FCM: NON-DROP FRAME", "",
       "001  AX       AA/V  C        00:00:01:00 00:00:02:13 00:00:00:00 00:00:01:13",
       "* FROM CLIP NAME: source.mp4",
       "* COMMENT: Take 0 | Score: N/A | ", ""] := by
    with_unfolding_all rfl
  rw [he] at h
  simp at h

set_option maxRecDepth 10000 in
/-- C2 (amended): for the S6 take at fps 25 and timeline position 0,
generateEDL emits the edit line with the four timecodes 00:00:01:00
00:00:02:13 00:00:00:00 00:00:01:13, each formatted HH:MM:SS:FF with
zero padding, and the frames field equals Math.round (half up) of
seconds times fps, modulo fps. -/
theorem c2_edl_timecodes :
    generateEDLLines [s6Take] "source.mp4" 25 =
      ["TITLE: Silence Cutter Edit", "FCM: NON-DROP FRAME", "",
       "001  AX       AA/V  C        00:00:01:00 00:00:02:13 00:00:00:00 00:00:01:13",
       "* FROM CLIP NAME: source.mp4",
       "* COMMENT: Take 0 | Score: N/A | ", ""] ∧
    jround (1 * 25) % 25 = 0 ∧ jround ((5/2) * 25) % 25 = 13 ∧
    jround ((3/2) * 25) % 25 = 13 := by
  refine ⟨by with_unfolding_all rfl, by with_unfolding_all rfl,
    by with_unfolding_all rfl, by with_unfolding_all rfl⟩

/-- C3: on the S1 log with the default padding 0.05 and minimum speech
0.30, detectSilence returns exactly the three segments 0.000-2.050,
2.950-6.050 and 6.950-10.000, with indices 0, 1, 2 in emission order
and all times rounded to three decimals. -/
theorem c3_segmentation :
    (detectSilence s1Log).segments =
      [⟨0, 0, 2.05, 2.05⟩, ⟨1, 2.95, 6.05, 3.1⟩, ⟨2, 6.95, 10, 3.05⟩] ∧
    (detectSilence s1Log).totalDuration = 10 := by
  refine ⟨by with_unfolding_all rfl, by with_unfolding_all rfl⟩

/-- C4 counterexample: on the S2 log (second silence_end removed) the
segment list contains no segment 5.950-10.000 — the unmatched silence
runs to the total duration 10, leaving no trailing speech. -/
theorem c4_counterexample :
    ((detectSilence s2Log).segments.any
        (fun s => s.start == 5.95 && s.stop == 10)) = false := by
  with_unfolding_all rfl

/-- C4 (amended): on the S2 log detectSilence pairs the i-th
silence_start with the i-th silence_end and gives the unmatched start
the end 10.000 (the total duration), so the silences are 2.0-3.0 and
6.0-10.0 and the segment list is exactly 0.000-2.050 and 2.950-6.050;
the second claimed segment 5.950-10.000 is not emitted. -/
theorem c4_unmatched_start :
    (detectSilence s2Log).silences = [⟨2, 3, 1⟩, ⟨6, 10, 4⟩] ∧
    (detectSilence s2Log).segments =
      [⟨0, 0, 2.05, 2.05⟩, ⟨1, 2.95, 6.05, 3.1⟩] := by
  refine ⟨by with_unfolding_all rfl, by with_unfolding_all rfl⟩

/-- C5 counterexample: with both texts empty the code returns 0.0, not
the 1.0 the claim requires — the JS falsiness guard fires before the
equal-strings rule. -/
theorem c5_counterexample : textSimilarity "" "" = 0 ∧ (0 : ℚ) ≠ 1 := by
  refine ⟨by with_unfolding_all rfl, by norm_num⟩

/-- C5 (amended): for all texts a and b, the similarity equals the
amended spec definition: an empty original text on either side
(including both empty) gives 0.0; otherwise equal strings after
lower-casing and trimming give 1.0; otherwise one minus the
Levenshtein distance divided by the longer normalised length. -/
theorem c5_similarity_spec (a b : String) :
    textSimilarity a b = specTextSimilarity a b := by
  unfold textSimilarity specTextSimilarity
  by_cases h : a = "" ∨ b = ""
  · simp [h]
  · simp only [h, if_false]
    by_cases h2 : a.toLower.trim = b.toLower.trim
    · simp [h2]
    · have hmax : ¬ (max a.toLower.trim.length b.toLower.trim.length = 0) := by
        intro h0
        have ha : a.toLower.trim.length = 0 := by omega
        have hb : b.toLower.trim.length = 0 := by omega
        exact h2 ((string_length_zero ha).trans (string_length_zero hb).symm)
      simp [h2, hmax]

theorem jsIndex_eq_some {α : Type} {l : List α} {i : ℤ} {a : α}
    (h : jsIndex l i = some a) : 0 ≤ i ∧ l[i.toNat]? = some a := by
  unfold jsIndex at h
  split at h
  · exact ⟨by assumption, h⟩
  · exact absurd h (by simp)

theorem countP_index_le_one (v : ℤ) (ts : List Take)
    (h : (ts.map (·.index)).Nodup) :
    ts.countP (fun t => t.index == v) ≤ 1 := by
  have hc : ts.countP (fun t => t.index == v) = (ts.map (·.index)).count v := by
    rw [List.count_eq_countP, List.countP_map]
    rfl
  rw [hc]
  exact List.nodup_iff_count_le_one.mp h v

theorem countP_index_eq_one_iff (v : ℤ) (ts : List Take)
    (h : (ts.map (·.index)).Nodup) :
    ts.countP (fun t => t.index == v) = 1 ↔ ∃ t ∈ ts, t.index = v := by
  have hc : ts.countP (fun t => t.index == v) = (ts.map (·.index)).count v := by
    rw [List.count_eq_countP, List.countP_map]
    rfl
  rw [hc]
  constructor
  · intro h1
    have hm : v ∈ ts.map (·.index) := by
      rw [← List.count_pos_iff, h1]
      exact Nat.one_pos
    obtain ⟨t, ht, hv⟩ := List.mem_map.mp hm
    exact ⟨t, ht, hv⟩
  · intro ⟨t, ht, hv⟩
    exact List.count_eq_one_of_mem h (List.mem_map.mpr ⟨t, ht, hv⟩)

theorem countP_isBest_applyGroup (sl : List (ℤ × Scores)) (bm : List (ℤ × ℤ))
    (g : Group) :
    (applyGroup sl bm g).takes.countP (·.is_best) =
      (match jsLookup bm g.group_id with
       | some v => g.takes.countP (fun t => t.index == v)
       | none => 0) := by
  unfold applyGroup
  rw [List.countP_map]
  rcases hv : jsLookup bm g.group_id with _ | v
  · rw [List.countP_eq_zero.mpr]
    intro t _
    show ¬ (((none : Option ℤ) == some t.index) = true)
    exact fun hfalse => nomatch hfalse
  · apply List.countP_congr
    intro t _
    show (((some v : Option ℤ) == some t.index) = true) ↔ ((t.index == v) = true)
    rw [show ((some v : Option ℤ) == some t.index) = (v == t.index) from rfl]
    constructor
    · intro h
      simp only [beq_iff_eq] at h ⊢
      omega
    · intro h
      simp only [beq_iff_eq] at h ⊢
      omega

theorem countP_isBest_setBest (s : ℤ) (g : Group) :
    (setBest s g).takes.countP (·.is_best) =
      g.takes.countP (fun t => t.index == s) := by
  unfold setBest
  rw [List.countP_map]
  rfl

theorem applyEvaluation_groups {groups : List Group} {ev : Evaluation}
    {sl : List (ℤ × Scores)} {bm : List (ℤ × ℤ)} {res : EvalResult}
    (h1 : evalScoresBest groups (ev.evaluations.getD []) ([], []) = some (sl, bm))
    (h2 : applyEvaluation groups ev = some res) :
    res.groups = groups.map (applyGroup sl bm) ∧
    res.suggestedOrder = suggestedOrderOf ev groups ∧
    buildBestTakes (groups.map (applyGroup sl bm)) bm (suggestedOrderOf ev groups) =
      some res.bestTakes := by
  unfold applyEvaluation at h2
  rw [h1] at h2
  split at h2
  · exact absurd h2 (by simp)
  · rename_i sl2 bm2 heq
    injection heq with heqp
    cases heqp
    split at h2
    · exact absurd h2 (by simp)
    · rename_i bt hbt
      injection h2 with h3
      rw [← h3]
      exact ⟨rfl, rfl, hbt⟩

theorem handleSelectTake_noop (st : AppState) (gid s : ℤ)
    (h : jsIndex st.groups gid = none) :
    handleSelectTake st gid s = st := by
  unfold handleSelectTake
  rw [h]

theorem setBest_idem (s : ℤ) (g : Group) :
    setBest s (setBest s g) = setBest s g := by
  unfold setBest
  simp only [List.map_map]
  congr 1

theorem jsIndex_set_self (l : List Group) (i : ℤ) (x : Group)
    (h0 : 0 ≤ i) (hlen : i.toNat < l.length) :
    jsIndex (l.set i.toNat x) i = some x := by
  unfold jsIndex
  rw [if_pos h0]
  exact List.getElem?_set_self (by simpa using hlen)

theorem handleSelectTake_idem (st : AppState) (gid s : ℤ) :
    handleSelectTake (handleSelectTake st gid s) gid s = handleSelectTake st gid s := by
  rcases hj : jsIndex st.groups gid with _ | g
  · rw [handleSelectTake_noop st gid s hj]
    exact handleSelectTake_noop st gid s hj
  · obtain ⟨h0, hget⟩ := jsIndex_eq_some hj
    have hlen : gid.toNat < st.groups.length := (List.getElem?_eq_some.mp hget).1
    have hr : handleSelectTake st gid s =
        { st with
          groups := st.groups.set gid.toNat (setBest s g),
          bestTakes := rebuildBestTakes (st.groups.set gid.toNat (setBest s g))
            (if st.suggestedOrder.isEmpty
              then (List.range st.groups.length).map Int.ofNat
              else st.suggestedOrder),
          finalDuration := (rebuildBestTakes (st.groups.set gid.toNat (setBest s g))
            (if st.suggestedOrder.isEmpty
              then (List.range st.groups.length).map Int.ofNat
              else st.suggestedOrder)).foldl (fun sum t => sum + t.duration) 0 } := by
      unfold handleSelectTake
      rw [hj]
    rw [hr]
    have hj2 : jsIndex (st.groups.set gid.toNat (setBest s g)) gid = some (setBest s g) :=
      jsIndex_set_self st.groups gid (setBest s g) h0 hlen
    unfold handleSelectTake
    rw [hj2]
    simp only [List.set_set, setBest_idem, List.length_set]

theorem jsIndex_ofNat {α : Type} (l : List α) (i : ℕ) :
    jsIndex l (Int.ofNat i) = l[i]? := by
  simp [jsIndex]

theorem buildBestTakes_nat (groups' : List Group) (bm : List (ℤ × ℤ)) :
    ∀ gids : List ℕ, ∃ bt,
      buildBestTakes groups' bm (gids.map Int.ofNat) = some bt ∧
      bt.length = gids.countP (contributesAt groups' bm) := by
  intro gids
  induction gids with
  | nil => exact ⟨[], rfl, rfl⟩
  | cons i rest ih =>
    obtain ⟨bt, hbt, hlen⟩ := ih
    rw [List.map_cons]
    by_cases hi : i < groups'.length
    · have hc : Int.ofNat i < (groups'.length : ℤ) := Int.ofNat_lt.mpr hi
      rcases hv : jsLookup bm (Int.ofNat i) with _ | v
      · have hv2 : jsLookup bm (i : ℤ) = none := hv
        have hcontrib : contributesAt groups' bm i = false := by
          simp [contributesAt, List.getElem?_eq_getElem hi, hv2]
        refine ⟨bt, ?_, ?_⟩
        · unfold buildBestTakes
          rw [if_pos hc, hv, hbt]
        · rw [List.countP_cons, hcontrib, hlen]
          simp
      · have hv2 : jsLookup bm (i : ℤ) = some v := hv
        rcases hf : groups'[i].takes.find? (fun t => t.index == v) with _ | take
        · have hcontrib : contributesAt groups' bm i = false := by
            simp [contributesAt, List.getElem?_eq_getElem hi, hv2, hf]
          refine ⟨bt, ?_, ?_⟩
          · unfold buildBestTakes
            rw [if_pos hc, hv, jsIndex_ofNat, List.getElem?_eq_getElem hi]
            simp [hf, hbt]
          · rw [List.countP_cons, hcontrib, hlen]
            simp
        · have hcontrib : contributesAt groups' bm i = true := by
            simp [contributesAt, List.getElem?_eq_getElem hi, hv2, hf]
          refine ⟨take :: bt, ?_, ?_⟩
          · unfold buildBestTakes
            rw [if_pos hc, hv, jsIndex_ofNat, List.getElem?_eq_getElem hi]
            simp [hf, hbt]
          · rw [List.countP_cons, hcontrib]
            simp [hlen]
    · have hc : ¬ (Int.ofNat i < (groups'.length : ℤ)) := fun hcc => hi (Int.ofNat_lt.mp hcc)
      have hcontrib : contributesAt groups' bm i = false := by
        simp [contributesAt, List.getElem?_eq_none (show groups'.length ≤ i by omega)]
      refine ⟨bt, ?_, ?_⟩
      · unfold buildBestTakes
        rw [if_neg hc, hbt]
      · rw [List.countP_cons, hcontrib, hlen]
        simp

theorem countP_range_getElem {α : Type} (l : List α) (p : α → Bool) :
    (List.range l.length).countP (fun i => (l[i]?.elim false p)) = l.countP p := by
  induction l with
  | nil => rfl
  | cons a t ih =>
    rw [show (a :: t).length = t.length + 1 from rfl]
    rw [List.range_succ_eq_map, List.countP_cons, List.countP_map, List.countP_cons]
    have h1 : List.countP
        ((fun i => ((a :: t)[i]?.elim false p)) ∘ Nat.succ)
        (List.range t.length) =
        List.countP (fun i => (t[i]?.elim false p))
        (List.range t.length) := by
      apply List.countP_congr
      intro i _
      simp [Function.comp, List.getElem?_cons_succ]
    rw [h1, ih]
    simp [List.getElem?_cons_zero]

theorem any_isBest_applyGroup (sl : List (ℤ × Scores)) (bm : List (ℤ × ℤ))
    (g : Group) :
    (applyGroup sl bm g).takes.any (·.is_best) =
      (match jsLookup bm g.group_id with
       | some v => (g.takes.find? (fun t => t.index == v)).isSome
       | none => false) := by
  rcases hv : jsLookup bm g.group_id with _ | v
  · show (applyGroup sl bm g).takes.any (·.is_best) = false
    rw [Bool.eq_false_iff]
    intro hany
    obtain ⟨t, ht, hb⟩ := List.any_eq_true.mp hany
    unfold applyGroup at ht
    obtain ⟨t0, _, rfl⟩ := List.mem_map.mp ht
    simp only [hv] at hb
    exact absurd hb (by simp [show ((none : Option ℤ) == some t0.index) = false from rfl])
  · show (applyGroup sl bm g).takes.any (·.is_best) =
      (g.takes.find? (fun t => t.index == v)).isSome
    rcases hexh : (g.takes.find? (fun t => t.index == v)).isSome with _ | _
    · rw [hexh, Bool.eq_false_iff]
      intro hany
      obtain ⟨t, ht, hb⟩ := List.any_eq_true.mp hany
      unfold applyGroup at ht
      obtain ⟨t0, ht0, rfl⟩ := List.mem_map.mp ht
      simp only [hv] at hb
      have hvi : v = t0.index := by
        rw [show ((some v : Option ℤ) == some t0.index) = (v == t0.index) from rfl] at hb
        exact beq_iff_eq.mp hb
      have hsome : (g.takes.find? (fun t => t.index == v)).isSome = true := by
        rw [List.find?_isSome]
        exact ⟨t0, ht0, by rw [beq_iff_eq]; omega⟩
      rw [hexh] at hsome
      exact absurd hsome (by simp)
    · rw [hexh]
      obtain ⟨t0, ht0, hp⟩ := List.find?_isSome.mp hexh
      apply List.any_eq_true.mpr
      refine ⟨{ t0 with
          ai_scores := (match jsLookup sl t0.index with
            | some s => some s
            | none => t0.ai_scores),
          is_best := jsLookup bm g.group_id == some t0.index }, ?_, ?_⟩
      · unfold applyGroup
        exact List.mem_map.mpr ⟨t0, ht0, rfl⟩
      · show (jsLookup bm g.group_id == some t0.index) = true
        rw [hv]
        have hvi : t0.index = v := beq_iff_eq.mp hp
        rw [show ((some v : Option ℤ) == some t0.index) = (v == t0.index) from rfl]
        rw [beq_iff_eq]
        omega

theorem find_isSome_applyGroup (sl : List (ℤ × Scores)) (bm : List (ℤ × ℤ))
    (g : Group) (v : ℤ) :
    ((applyGroup sl bm g).takes.find? (fun t => t.index == v)).isSome =
      (g.takes.find? (fun t => t.index == v)).isSome := by
  rw [Bool.eq_iff_iff, List.find?_isSome, List.find?_isSome]
  constructor
  · intro ⟨t, ht, hp⟩
    unfold applyGroup at ht
    obtain ⟨t0, ht0, rfl⟩ := List.mem_map.mp ht
    exact ⟨t0, ht0, hp⟩
  · intro ⟨t0, ht0, hp⟩
    refine ⟨{ t0 with
        ai_scores := (match jsLookup sl t0.index with
          | some s => some s
          | none => t0.ai_scores),
        is_best := jsLookup bm g.group_id == some t0.index }, ?_, hp⟩
    unfold applyGroup
    exact List.mem_map.mpr ⟨t0, ht0, rfl⟩

/-- C6 counterexample: applying an empty oracle reply to a one-group
session leaves the group with zero is_best members, not exactly one. -/
theorem c6_counterexample :
    (applyEvaluation wGroups emptyEval).map
      (fun r => r.groups.map (fun g => g.takes.countP (·.is_best))) = some [0] ∧
    (0 : ℕ) ≠ 1 :=
  ⟨by with_unfolding_all rfl, by decide⟩

/-- C6 (amended): after a non-crashing applyEvaluation, a group whose
takes carry pairwise-distinct indices has exactly one is_best member
iff the computed bestPerGroup table maps its group id to the index of
one of its members; a reply that covers no group (or maps it to a
foreign index) leaves zero best members, so the original claim of
always exactly one fails. -/
theorem c6_exactly_one_best (groups : List Group) (ev : Evaluation)
    (sl : List (ℤ × Scores)) (bm : List (ℤ × ℤ)) (res : EvalResult)
    (h1 : evalScoresBest groups (ev.evaluations.getD []) ([], []) = some (sl, bm))
    (h2 : applyEvaluation groups ev = some res) :
    ∀ g ∈ res.groups, (g.takes.map (·.index)).Nodup →
      (g.takes.countP (·.is_best) = 1 ↔
        ∃ t ∈ g.takes, jsLookup bm g.group_id = some t.index) := by
  intro g hg hnd
  rw [(applyEvaluation_groups h1 h2).1] at hg
  obtain ⟨g0, hg0, rfl⟩ := List.mem_map.mp hg
  have hgid : (applyGroup sl bm g0).group_id = g0.group_id := rfl
  have hidx : (applyGroup sl bm g0).takes.map (·.index) = g0.takes.map (·.index) := by
    unfold applyGroup
    rw [List.map_map]
    rfl
  rw [countP_isBest_applyGroup]
  rw [hgid]
  rcases hv : jsLookup bm g0.group_id with _ | v
  · constructor
    · intro h; exact absurd h (by simp)
    · intro ⟨t, _, hsome⟩
      exact absurd hsome (by simp)
  · have hnd0 : (g0.takes.map (·.index)).Nodup := by rw [← hidx]; exact hnd
    rw [countP_index_eq_one_iff v g0.takes hnd0]
    constructor
    · intro ⟨t, ht, hvt⟩
      refine ⟨{ t with
          ai_scores := (match jsLookup sl t.index with
            | some s => some s
            | none => t.ai_scores),
          is_best := jsLookup bm g0.group_id == some t.index }, ?_, ?_⟩
      · unfold applyGroup
        exact List.mem_map.mpr ⟨t, ht, rfl⟩
      · show some v = some t.index
        rw [hvt]
    · intro ⟨t, ht, hsome⟩
      unfold applyGroup at ht
      obtain ⟨t0, ht0, rfl⟩ := List.mem_map.mp ht
      refine ⟨t0, ht0, ?_⟩
      rw [hv] at hsome
      injection hsome with hh
      exact hh.symm

/-- C7 counterexample: with an explicitly empty suggested_order list
the order is used verbatim (an empty JS array is truthy), so bestTakes
is empty although one group has a best take, and the order used is not
the identity permutation. -/
theorem c7_counterexample :
    (applyEvaluation wGroups wEvalEmptyOrder).map
      (fun r => (r.suggestedOrder, r.bestTakes.length,
        r.groups.countP (fun g => g.takes.any (·.is_best)))) = some ([], 0, 1) ∧
    ([] : List ℤ) ≠ [Int.ofNat 0] :=
  ⟨by with_unfolding_all rfl, by decide⟩

/-- C7 (amended): only a missing (or null) suggested_order defaults to
the identity permutation on the groups; in that case, when group ids
equal positions, every group holding a best take contributes exactly
one entry to bestTakes. -/
theorem c7_missing_order_identity (groups : List Group) (ev : Evaluation)
    (res : EvalResult)
    (hso : ev.suggested_order = none)
    (hid : ∀ (i : ℕ) (h : i < groups.length), groups[i].group_id = Int.ofNat i)
    (h2 : applyEvaluation groups ev = some res) :
    res.suggestedOrder = (List.range groups.length).map Int.ofNat ∧
    res.bestTakes.length =
      res.groups.countP (fun g => g.takes.any (·.is_best)) := by
  rcases h1 : evalScoresBest groups (ev.evaluations.getD []) ([], []) with _ | ⟨sl, bm⟩
  · unfold applyEvaluation at h2
    rw [h1] at h2
    exact absurd h2 (by simp)
  · obtain ⟨hG, hSO, hBT⟩ := applyEvaluation_groups h1 h2
    have hso2 : suggestedOrderOf ev groups =
        (List.range groups.length).map Int.ofNat := by
      unfold suggestedOrderOf
      rw [hso]
    refine ⟨by rw [hSO, hso2], ?_⟩
    rw [hso2] at hBT
    obtain ⟨bt, hbt, hlen⟩ :=
      buildBestTakes_nat (groups.map (applyGroup sl bm)) bm (List.range groups.length)
    rw [hbt] at hBT
    injection hBT with hbteq
    rw [← hbteq, hlen, hG]
    have hlen2 : groups.length = (groups.map (applyGroup sl bm)).length :=
      (List.length_map _ _).symm
    have hcongr : (List.range groups.length).countP
        (contributesAt (groups.map (applyGroup sl bm)) bm) =
        (List.range groups.length).countP
          (fun i => ((groups.map (applyGroup sl bm))[i]?.elim false
            (fun g => g.takes.any (·.is_best)))) := by
      apply List.countP_congr
      intro i hi
      have hilen0 : i < groups.length := List.mem_range.mp hi
      have hilen : i < (groups.map (applyGroup sl bm)).length := by
        rw [← hlen2]
        exact hilen0
      have hkey : contributesAt (groups.map (applyGroup sl bm)) bm i =
          ((groups.map (applyGroup sl bm))[i]?.elim false
            (fun g => g.takes.any (·.is_best))) := by
        unfold contributesAt
        rw [List.getElem?_eq_getElem hilen, List.getElem_map]
        rw [show ((some (applyGroup sl bm groups[i])).elim false
            (fun g => g.takes.any (·.is_best))) =
            (applyGroup sl bm groups[i]).takes.any (·.is_best) from rfl]
        rw [any_isBest_applyGroup]
        rw [hid i hilen0]
        rcases hv : jsLookup bm (Int.ofNat i) with _ | v
        · rfl
        · show ((applyGroup sl bm groups[i]).takes.find?
              (fun t => t.index == v)).isSome =
            (groups[i].takes.find? (fun t => t.index == v)).isSome
          exact find_isSome_applyGroup sl bm groups[i] v
      rw [hkey]
    rw [hcongr, hlen2]
    exact countP_range_getElem (groups.map (applyGroup sl bm)) (fun g => g.takes.any (·.is_best))

/-- C8 counterexample: select_take on an existing group with a
segment index that is not a member is not a no-op: it clears the
current best flag and changes best_takes and final_duration. -/
theorem c8_counterexample : handleSelectTake wState 0 5 ≠ wState := by
  intro heq
  have hf : (handleSelectTake wState 0 5).finalDuration = wState.finalDuration := by
    rw [heq]
  have h0 : (handleSelectTake wState 0 5).finalDuration = 0 := by
    with_unfolding_all rfl
  have h1 : wState.finalDuration = 1 := by with_unfolding_all rfl
  rw [h0, h1] at hf
  exact absurd hf (by norm_num)

/-- C8 (amended): the override is a no-op only when the group does not
exist; when the group exists but the named segment is not a member,
every is_best flag in the group is cleared (and best_takes and
final_duration are rebuilt accordingly). -/
theorem c8_invalid_override :
    (∀ (st : AppState) (gid s : ℤ), jsIndex st.groups gid = none →
        handleSelectTake st gid s = st) ∧
    (∀ (s : ℤ) (g : Group), (∀ t ∈ g.takes, t.index ≠ s) →
        ∀ t ∈ (setBest s g).takes, t.is_best = false) := by
  constructor
  · exact handleSelectTake_noop
  · intro s g hne t ht
    unfold setBest at ht
    obtain ⟨t0, ht0, rfl⟩ := List.mem_map.mp ht
    show (t0.index == s) = false
    exact beq_eq_false_iff_ne.mpr (hne t0 ht0)

/-- C9: for every state and valid pair of group and member segment,
running select_take twice in a row leaves the state (is_best flags,
best_takes, final_duration, suggested_order) identical to running it
once. -/
theorem c9_select_take_idempotent (st : AppState) (gid s : ℤ) (g : Group)
    (_hg : jsIndex st.groups gid = some g) (_hs : s ∈ g.takes.map (·.index)) :
    handleSelectTake (handleSelectTake st gid s) gid s = handleSelectTake st gid s :=
  handleSelectTake_idem st gid s

/-- C10: for every group whose takes carry pairwise-distinct indices,
after applyEvaluation at most one take in the group is flagged best;
and select_take preserves the at-most-one-best property for every
group with distinct indices. -/
theorem c10_at_most_one_best :
    (∀ (groups : List Group) (ev : Evaluation) (res : EvalResult),
        applyEvaluation groups ev = some res →
        ∀ g ∈ res.groups, (g.takes.map (·.index)).Nodup →
          g.takes.countP (·.is_best) ≤ 1) ∧
    (∀ (st : AppState) (gid s : ℤ),
        (∀ g ∈ st.groups, (g.takes.map (·.index)).Nodup →
          g.takes.countP (·.is_best) ≤ 1) →
        ∀ g ∈ (handleSelectTake st gid s).groups,
          (g.takes.map (·.index)).Nodup → g.takes.countP (·.is_best) ≤ 1) := by
  constructor
  · intro groups ev res h2 g hg hnd
    unfold applyEvaluation at h2
    rcases h1 : evalScoresBest groups (ev.evaluations.getD []) ([], []) with _ | ⟨sl, bm⟩
    · rw [h1] at h2
      exact absurd h2 (by simp)
    · rw [(applyEvaluation_groups h1 h2).1] at hg
      obtain ⟨g0, hg0, rfl⟩ := List.mem_map.mp hg
      have hidx : (applyGroup sl bm g0).takes.map (·.index) = g0.takes.map (·.index) := by
        unfold applyGroup
        rw [List.map_map]
        rfl
      have hnd0 : (g0.takes.map (·.index)).Nodup := by rw [← hidx]; exact hnd
      rw [countP_isBest_applyGroup]
      rcases hv : jsLookup bm g0.group_id with _ | v
      · exact Nat.zero_le 1
      · exact countP_index_le_one v g0.takes hnd0
  · intro st gid s hinv g hg hnd
    rcases hj : jsIndex st.groups gid with _ | g0
    · rw [handleSelectTake_noop st gid s hj] at hg
      exact hinv g hg hnd
    · have hgroups : (handleSelectTake st gid s).groups =
          st.groups.set gid.toNat (setBest s g0) := by
        unfold handleSelectTake
        rw [hj]
      rw [hgroups] at hg
      rcases List.mem_or_eq_of_mem_set hg with hmem | rfl
      · exact hinv g hmem hnd
      · rw [countP_isBest_setBest]
        have hidx : (setBest s g0).takes.map (·.index) = g0.takes.map (·.index) := by
          unfold setBest
          rw [List.map_map]
          rfl
        have hnd0 : (g0.takes.map (·.index)).Nodup := by rw [← hidx]; exact hnd
        exact countP_index_le_one s g0.takes hnd0

theorem c6_witness :
    wResGroup.takes.countP (·.is_best) = 1 ↔
      ∃ t ∈ wResGroup.takes,
        jsLookup [((0 : ℤ), (1 : ℤ))] wResGroup.group_id = some t.index :=
  c6_exactly_one_best wGroups wEvalNoOrder [] [((0 : ℤ), (1 : ℤ))] wRes
    (by with_unfolding_all rfl) (by with_unfolding_all rfl) wResGroup
    (show wResGroup ∈ [wResGroup] from List.mem_cons_self _ _)
    (by decide)

theorem c7_witness :
    wRes.suggestedOrder = (List.range wGroups.length).map Int.ofNat ∧
    wRes.bestTakes.length =
      wRes.groups.countP (fun g => g.takes.any (·.is_best)) :=
  c7_missing_order_identity wGroups wEvalNoOrder wRes rfl
    (by
      intro i hi
      have h0 : i = 0 := by
        have : wGroups.length = 1 := rfl
        omega
      subst h0
      rfl)
    (by with_unfolding_all rfl)

theorem c8_witness :
    handleSelectTake wState 5 0 = wState ∧ wClearedTake.is_best = false :=
  ⟨c8_invalid_override.1 wState 5 0 (by with_unfolding_all rfl),
   c8_invalid_override.2 5 wOrigGroup (by decide) wClearedTake
     (show wClearedTake ∈ [wClearedTake, ⟨1, 1, 2, 1, none, none, none, false⟩]
       from List.mem_cons_self _ _)⟩

theorem c9_witness :
    handleSelectTake (handleSelectTake wState 0 1) 0 1 =
      handleSelectTake wState 0 1 :=
  c9_select_take_idempotent wState 0 1 wOrigGroup (by with_unfolding_all rfl)
    (by decide)

theorem c10_witness :
    wResGroup.takes.countP (·.is_best) ≤ 1 ∧
    wClearedGroup.takes.countP (·.is_best) ≤ 1 :=
  ⟨c10_at_most_one_best.1 wGroups wEvalNoOrder wRes (by with_unfolding_all rfl)
      wResGroup (show wResGroup ∈ [wResGroup] from List.mem_cons_self _ _)
      (by decide),
   c10_at_most_one_best.2 wState 0 5 (by decide) wClearedGroup
      (by with_unfolding_all exact List.mem_cons_self _ _)
      (by decide)⟩

end SilenceCutter
